import Mathlib

/-!
Verification development for the device-control agent (Go sources under
`src/device-control` and `src/unnamed`).  The definitions below are a shallow
embedding of the agent code: the Configuration Patch Engine
(`changeInterface` / `JsonChange` / `ToNumber` in the config package), the
Application Registry (`SaveAppInfo` / `DeleteAppInfo` / `CheckExistApp`), the
Deployment Engine (`Deploy`, `InferenceDeploy`, `Delete`, `DeleteVenv`,
`InferenceDelete`, `GetAppsFromGroup`) and the MQTT dispatcher (`SubMessage`,
the `Control` bash case, the reboot check of `RunBody`).  External effects
(HTTP download, shell execution, systemd, pip) are modelled by explicit
oracles; the filesystem state that the claims inspect (registry file, app
directories, venv directories, service units) is threaded as an explicit
`World` value.
-/

namespace DeviceControl

/-! ## JSON values

A Go `interface{}` holding decoded JSON.  A document loaded by
`json.Decoder` with `UseNumber()` (the target file of `JsonChange`) keeps
numeric literals as `json.Number` tokens, modelled by `JVal.num tok`.
A document decoded by plain `json.Unmarshal` (the inbound `parameter` map)
turns numbers into `float64`, modelled by `JVal.float n`; only
integral doubles appear in the claims, so the payload is an `Int`
(exact for the magnitudes involved).  Go JSON `null` values make the
reference code panic inside `changeInterface` (reflect on a nil
interface); `jnull` therefore only occurs as the value the code itself
stores for a failed nested merge (a nil Go map marshals as `null`). -/
inductive JVal where
  | jnull
  | jbool (b : Bool)
  | num (tok : String)
  | float (n : Int)
  | str (s : String)
  | arr (elems : List JVal)
  | obj (fields : List (String × JVal))

mutual

/-- Structural size of a JSON value, used as the termination measure of the
recursive merge. -/
def JVal.size : JVal → Nat
  | .obj fs => 1 + JVal.sizeFields fs
  | .arr es => 1 + JVal.sizeElems es
  | _ => 1

def JVal.sizeFields : List (String × JVal) → Nat
  | [] => 0
  | (_, v) :: rest => 1 + JVal.size v + JVal.sizeFields rest

def JVal.sizeElems : List JVal → Nat
  | [] => 0
  | v :: rest => 1 + JVal.size v + JVal.sizeElems rest

end

/-- Lookup of a key in a decoded JSON object (Go map indexing). -/
def lookupField : List (String × JVal) → String → Option JVal
  | [], _ => none
  | (k, v) :: rest, key => if k == key then some v else lookupField rest key

/-- Go map assignment `target[key] = v`: replaces the binding if present,
inserts it otherwise. -/
def setField : List (String × JVal) → String → JVal → List (String × JVal)
  | [], key, v => [(key, v)]
  | (k, w) :: rest, key, v =>
    if k == key then (k, v) :: rest else (k, w) :: setField rest key v

/-- Whether a decoded value has Go `reflect.Kind` `Map`. -/
def JVal.isMap : JVal → Bool
  | .obj _ => true
  | _ => false

/-- Whether a decoded value has Go `reflect.Kind` `String`. -/
def JVal.isStr : JVal → Bool
  | .str _ => true
  | _ => false

/-- Syntax accepted by `json.Number.Int64` (`strconv.ParseInt`, base 10):
an optional sign followed by decimal digits.  The 64-bit range bound is not
modelled; the tokens in the claims are single digits. -/
def numTokIntOk (tok : String) : Bool :=
  let s0 := tok.toList
  let s1 := match s0 with
    | '-' :: r => r
    | '+' :: r => r
    | _ => s0
  !s1.isEmpty && s1.all Char.isDigit

/-- Syntax of a JSON number token, all of which `json.Number.Float64`
(`strconv.ParseFloat`) accepts: optional minus, digits, optional fraction,
optional exponent. -/
def numTokFloatOk (tok : String) : Bool :=
  let s0 := tok.toList
  let s1 := match s0 with
    | '-' :: r => r
    | _ => s0
  let intp := s1.takeWhile Char.isDigit
  let r1 := s1.dropWhile Char.isDigit
  if intp.isEmpty then false
  else
    let r2 : Option (List Char) := match r1 with
      | '.' :: r =>
        if (r.takeWhile Char.isDigit).isEmpty then none
        else some (r.dropWhile Char.isDigit)
      | _ => some r1
    match r2 with
    | none => false
    | some [] => true
    | some (c :: r4) =>
      if c == 'e' || c == 'E' then
        let r5 := match r4 with
          | '+' :: r => r
          | '-' :: r => r
          | _ => r4
        !r5.isEmpty && r5.all Char.isDigit
      else false

/-- Go `fmt.Sprintf("%.1f", x)` on an integral `float64`. -/
def goFmtOneDecimal (n : Int) : String := toString n ++ ".0"

/-- `ToNumber` (config package): converts a patch value to a `json.Number`.
A `float64` renders with one decimal (`%.1f`), a string is taken verbatim.
The remaining source branch (`%.1f` of `f.(int)`) cannot be reached with a
JSON-decoded argument and a non-numeric non-string argument would panic
there; such values are returned unchanged here and never reach `ToNumber`
through `changeInterface` in the claims. -/
def ToNumber : JVal → JVal
  | .float n => .num (goFmtOneDecimal n)
  | .str s => .num s
  | v => v

/-- Outcome of processing one patch entry whose key exists in the target:
either the whole merge aborts (`return nil, err` in the source) or the
loop continues with an updated target and error variable. -/
inductive MergeStep where
  | abort (e : String)
  | cont (target : List (String × JVal)) (err : Option String)

mutual

/-- Body of one `changeInterface` loop iteration for an existing key,
entered with the function-scoped `err` equal to `nil` (the source returns
early otherwise).  Mirrors the source branch for branch:
map/map recurses (a nested failure stores the nil map and keeps the error
in `err`), map/non-map and non-map/map abort, a string patch value
overwrites, a `json.Number` target converts via `Int64`/`Float64`, and any
other target value is overwritten directly. -/
def mergeOne (key : String) (val tval : JVal) (target : List (String × JVal)) :
    MergeStep :=
  match tval with
  | .obj tfields =>
    match val with
    | .obj vfields =>
      let r := changeInterfaceAux vfields tfields none
      let newv := match r.1 with
        | some m => JVal.obj m
        | none => JVal.jnull
      .cont (setField target key newv) r.2
    | _ => .abort ("Check [" ++ key ++ "] parameter")
  | _ =>
    if val.isMap then .abort ("Check " ++ key ++ " parameter")
    else if val.isStr then .cont (setField target key val) none
    else
      match tval with
      | .num tok =>
        if numTokIntOk tok then .cont (setField target key val) none
        else if numTokFloatOk tok then .cont (setField target key (ToNumber val)) none
        else .cont target (some ("invalid number token: " ++ tok))
      | _ => .cont (setField target key val) none
termination_by JVal.size val
decreasing_by
  all_goals simp [JVal.size, JVal.sizeFields]

/-- The `changeInterface` loop over the patch map `data`, with the
function-scoped `err` threaded explicitly.  Go map iteration order is not
specified; the embedding fixes the order of the decoded association list.
A key absent from the target is skipped; for a present key a pending error
returns `(nil, err)` first, otherwise the entry is processed by
`mergeOne`. -/
def changeInterfaceAux :
    List (String × JVal) → List (String × JVal) → Option String →
    Option (List (String × JVal)) × Option String
  | [], target, err => (some target, err)
  | (key, val) :: rest, target, err =>
    match lookupField target key with
    | none => changeInterfaceAux rest target err
    | some tval =>
      match err with
      | some e => (none, some e)
      | none =>
        match mergeOne key val tval target with
        | .abort e => (none, some e)
        | .cont target' err' => changeInterfaceAux rest target' err'
termination_by data _ _ => JVal.sizeFields data
decreasing_by
  all_goals simp [JVal.size, JVal.sizeFields]
  all_goals omega

end

/-- `changeInterface(data, target)` with the local `err` initialized to
`nil`. -/
def changeInterface (data target : List (String × JVal)) :
    Option (List (String × JVal)) × Option String :=
  changeInterfaceAux data target none

/-- `JsonChange` restricted to the state the claims observe: the parsed
content of the single target config file (`none` when the file is missing
or does not decode to a JSON object).  Returns the error, the HTTP status
code and the file content after the call.  The source reads the file,
merges with `changeInterface`, and only on a `nil` error marshals the
merged document back over the same path; on error it returns
`http.StatusBadRequest` before any write. -/
def jsonChange (parameter : Option (List (String × JVal))) (fileName : String)
    (file : Option (List (String × JVal))) :
    Option String × Nat × Option (List (String × JVal)) :=
  match parameter with
  | none => (none, 200, file)
  | some paramData =>
    if fileName == "" then (none, 200, file)
    else
      match file with
      | none => (some "Not found file", 400, none)
      | some jsonData =>
        let r := changeInterface paramData jsonData
        match r.2 with
        | some e => (some e, 400, some jsonData)
        | none => (none, 200, some (r.1.getD jsonData))

/-- Rendering of a scalar JSON value by `encoding/json`: a `json.Number`
marshals as its token text and an integral `float64` marshals without a
decimal point.  Composite values are not needed by the claims. -/
def goMarshalScalar : JVal → Option String
  | .jnull => some "null"
  | .jbool b => some (if b then "true" else "false")
  | .num tok => some tok
  | .float n => some (toString n)
  | .str s => some ("\"" ++ s ++ "\"")
  | _ => none

/-- Serialized text of the value stored under `k` in a decoded object. -/
def fieldText (fs : List (String × JVal)) (k : String) : Option String :=
  (lookupField fs k).bind goMarshalScalar

/-! ## Application Registry

The registry is the file `{rootPath}/device.config/app.json`: a JSON object
holding `AppInfoList`, a list of `AppInfo` records.  `none` models an
absent (or unreadable) file. -/

/-- The `AppInference` block of a registry record. -/
structure AppInferenceInfo where
  modelId : String
  modelName : String
  modelVersion : Int
deriving Repr, DecidableEq

/-- One Application Record (`AppInfo` in the controlType package). -/
structure AppInfo where
  appName : String
  appId : String
  appVenv : String
  managed : String
  appGroupId : String
  appInference : AppInferenceInfo
deriving Repr, DecidableEq

/-- The parsed registry file; `none` when the file does not exist. -/
abbrev Registry := Option (List AppInfo)

/-- `NewInferenceInfo()`: the zero-valued inference block used for plain
(non-group) deployments. -/
def newInferenceInfo : AppInferenceInfo := ⟨"", "", 0⟩

/-- `SaveAppInfo`: if the registry file is absent it is created with a
single record, otherwise the whole list is read, the new record appended,
and the list written back.  No uniqueness check is performed here. -/
def saveAppInfo (appName appId appVenv appManaged : String)
    (inf : AppInferenceInfo) (groupId : String) (reg : Registry) : Registry :=
  let newApp : AppInfo := ⟨appName, appId, appVenv, appManaged, groupId, inf⟩
  match reg with
  | none => some [newApp]
  | some l => some (l ++ [newApp])

/-- `DeleteAppInfo`: reads the list (returning early when the file cannot
be read) and writes back every record whose `AppName` differs from the
target, removing all records with that name. -/
def deleteAppInfo (appName : String) (reg : Registry) : Registry :=
  match reg with
  | none => none
  | some l => some (l.filter (fun a => a.appName != appName))

/-- `CheckExistApp`: `false` when the registry file is absent, otherwise
whether some record carries the target name. -/
def checkExistApp (targetApp : String) (reg : Registry) : Bool :=
  match reg with
  | none => false
  | some l => l.any (fun a => a.appName == targetApp)

/-- `GetAppsFromGroup`: names and ids of all records with the given
`AppGroupId` (empty lists when the file cannot be read). -/
def getAppsFromGroup (appGroupId : String) (reg : Registry) :
    List String × List String :=
  match reg with
  | none => ([], [])
  | some l =>
    let members := l.filter (fun a => a.appGroupId == appGroupId)
    (members.map (fun a => a.appName), members.map (fun a => a.appId))

/-- One registry mutation: an add (`SaveAppInfo`) or a remove
(`DeleteAppInfo`). -/
inductive RegOp where
  | add (appName appId appVenv managed : String) (inf : AppInferenceInfo)
        (groupId : String)
  | remove (appName : String)

/-- Apply a raw registry operation, exactly as `SaveAppInfo` /
`DeleteAppInfo` behave. -/
def applyRegOp (reg : Registry) : RegOp → Registry
  | .add n i v m inf g => saveAppInfo n i v m inf g reg
  | .remove n => deleteAppInfo n reg

/-- Run a sequence of raw registry operations. -/
def runRegOps (ops : List RegOp) (reg : Registry) : Registry :=
  ops.foldl applyRegOp reg

/-- Apply a registry operation the way the deployment call sites do: every
add is preceded by a `CheckExistApp` guard and skipped when a record with
the name already exists (`Deploy` / `InferenceDeploy` abort with
`"App already exist."` before reaching `SaveAppInfo`). -/
def applyRegOpGuarded (reg : Registry) : RegOp → Registry
  | .add n i v m inf g =>
    if checkExistApp n reg then reg else saveAppInfo n i v m inf g reg
  | .remove n => deleteAppInfo n reg

/-- Run a sequence of guarded registry operations. -/
def runRegOpsGuarded (ops : List RegOp) (reg : Registry) : Registry :=
  ops.foldl applyRegOpGuarded reg

/-- The multiset of `appName`s stored in the registry file. -/
def registryNames (reg : Registry) : List String :=
  (reg.getD []).map (fun a => a.appName)

/-- Registry uniqueness invariant: no two records share an `appName`. -/
def NoDupNames (reg : Registry) : Prop := (registryNames reg).Nodup

/-! ## Filesystem traces of the registry writers

`SaveAppInfo` and `DeleteAppInfo` write with `ioutil.WriteFile` directly
over the registry path; the traces below record the sequence of filesystem
calls each function performs. -/

/-- A filesystem call observable by a concurrent reader. -/
inductive FsOp where
  | statF (path : String)
  | readF (path : String)
  | writeF (path : String)
  | renameF (src dst : String)
deriving Repr, DecidableEq

/-- Path of the Application Registry backing file. -/
def registryFile (rootPath : String) : String :=
  rootPath ++ "/device.config/app.json"

/-- Filesystem calls of `SaveAppInfo`: `os.Stat`, then (when the file
already exists) `ioutil.ReadFile`, then `ioutil.WriteFile` of the whole
marshalled list over the registry path itself. -/
def saveAppInfoFsTrace (rootPath : String) (fileExists : Bool) : List FsOp :=
  let f := registryFile rootPath
  if fileExists then [.statF f, .readF f, .writeF f] else [.statF f, .writeF f]

/-- Filesystem calls of `DeleteAppInfo`: `ioutil.ReadFile` then
`ioutil.WriteFile` over the registry path itself. -/
def deleteAppInfoFsTrace (rootPath : String) : List FsOp :=
  [.readF (registryFile rootPath), .writeF (registryFile rootPath)]

/-- Whether a filesystem call is a rename. -/
def isRename : FsOp → Bool
  | .renameF _ _ => true
  | _ => false

/-- Whether a filesystem call writes file `f` in place. -/
def isWriteTo (f : String) : FsOp → Bool
  | .writeF p => p == f
  | _ => false

/-- Whether a trace contains an in-place write of `f`. -/
def writesDirectly (tr : List FsOp) (f : String) : Bool :=
  tr.any (isWriteTo f)

/-- Number of in-place writes of `f` in a trace. -/
def writeCount (tr : List FsOp) (f : String) : Nat :=
  (tr.filter (isWriteTo f)).length

/-! ## Result envelopes and the MQTT dispatcher -/

/-- `CmdStatus` of a result envelope. -/
structure CmdStatus where
  succeed : Int
  statusCode : Int
  errMsg : String
deriving Repr, DecidableEq

/-- `CmdResult` of a result envelope.  The wall-clock fields `ReleasedAt` /
`UpdatedAt` and the `Parameter` payload (the fetched config map) are not
inspected by any claim and are omitted. -/
structure CmdResult where
  command : String
  subCommand : String
  pid : Int
  size : Int
  appName : String
  venvName : String
  venvRequirement : String
  appId : String
  message : String
  appRepoPath : String
  modelName : String
  modelVersion : Int
  modelId : String
deriving Repr, DecidableEq

/-- `ResultMsg`: the outbound result envelope.  Exactly one of `result` /
`results` is populated by the dispatcher. -/
structure ResultMsg where
  assetCode : String
  result : Option CmdResult
  results : Option (List CmdResult)
  status : CmdStatus
  requestId : String
  appGroupId : String
deriving Repr, DecidableEq

/-- `NewCmdResult`: fresh result body with `-1` pid/size/modelVersion and
empty string fields. -/
def newCmdResult (command subCommand message : String) : CmdResult :=
  { command := command, subCommand := subCommand, pid := -1, size := -1,
    appName := "", venvName := "", venvRequirement := "", appId := "",
    message := message, appRepoPath := "", modelName := "",
    modelVersion := -1, modelId := "" }

/-- `NewCmdStatus`: fresh status with `succeed = 1` and an empty error. -/
def newCmdStatus (statusCode : Int) : CmdStatus :=
  { succeed := 1, statusCode := statusCode, errMsg := "" }

/-- The zero value of `ResultMsg`, as left in `configResult` by every
`Control` case that does not produce a config result. -/
def emptyResultMsg : ResultMsg :=
  { assetCode := "", result := none, results := none,
    status := { succeed := 0, statusCode := 0, errMsg := "" },
    requestId := "", appGroupId := "" }

/-- The command envelope fields the dispatcher itself reads (`cmdInfo` is
decoded per command type by each handler). -/
structure CmdControl where
  cmdType : String
  subCmdType : String
  assetCode : String
  requestId : String
deriving Repr, DecidableEq

/-- A message published by the agent: the ack on the `request/ack` topic or
an envelope on the `response` topic. -/
inductive OutMsg where
  | ack (requestId : String)
  | response (msg : ResultMsg)
deriving Repr, DecidableEq

/-- The result-publication decision of `SubMessage`: the envelope is sent
when it carries no single result body, or when its `SubCommand` is not
`"reboot"` (the reboot reply is deferred to the next start). -/
def resultSends (result : ResultMsg) : List OutMsg :=
  match result.result with
  | none => [.response result]
  | some r => if r.subCommand != "reboot" then [.response result] else []

/-- The config-result publication decision of `SubMessage`: sent only when
the handler populated it (non-empty `AssetCode`). -/
def configSends (c : ResultMsg) : List OutMsg :=
  if c.assetCode != "" then [.response c] else []

/-- `SubMessage` as the ordered list of messages it publishes for one
inbound payload.  `parsed` is the result of unmarshalling the payload:
`none` (unmarshal error) publishes nothing; otherwise the ack is published
first, then `Control` runs and its result and config-result envelopes are
published subject to the decisions above. -/
def subMessage (parsed : Option CmdControl)
    (ctl : CmdControl → ResultMsg × ResultMsg) : List OutMsg :=
  match parsed with
  | none => []
  | some m => .ack m.requestId :: (resultSends (ctl m).1 ++ configSends (ctl m).2)

/-! ## Device config file, the bash command handler, and the reboot path -/

/-- The fields of `/etc/sdt/device.config/config.json` that the reboot path
reads and writes. -/
structure DeviceConfig where
  assetCode : String
  reboot : String
  requestId : String
deriving Repr, DecidableEq

/-- `Rebooting(rebootVal, requestid)`: rewrites the `reboot` and
`requestid` keys of the device config file. -/
def rebooting (rebootVal requestid : String) (cfg : DeviceConfig) : DeviceConfig :=
  { cfg with reboot := rebootVal, requestId := requestid }

/-- `cmdInfo` of a bash command. -/
structure CmdBash where
  cmd : String
deriving Repr, DecidableEq

/-- `CheckBash`: a bash command must carry a non-empty command string. -/
def checkBash (c : CmdBash) : Bool := c.cmd != ""

/-- `FormError`: the standard malformed-request envelope (statusCode 400,
`succeed = 0`). -/
def formError (assetcode requestId cmd subCmd : String) : ResultMsg :=
  { assetCode := assetcode,
    result := some (newCmdResult cmd subCmd "This is not the correct form."),
    results := none,
    status := { succeed := 0, statusCode := 400,
                errMsg := "This is not the correct form." },
    requestId := requestId, appGroupId := "" }

/-- Oracle for the shell execution of a bash command: combined output and
whether the process exited successfully. -/
structure BashExec where
  out : String
  ok : Bool
deriving Repr, DecidableEq

/-- Side effects of the bash handler, in execution order. -/
inductive CtlAct where
  | writeRebootMarker (requestId : String)
  | execShell (cmd : String)
deriving Repr, DecidableEq

/-- Everything the `case "bash"` branch of `Control` produces. -/
structure BashOutcome where
  result : ResultMsg
  configResult : ResultMsg
  cfg : DeviceConfig
  acts : List CtlAct
deriving Repr, DecidableEq

/-- The `case "bash"` branch of `Control` (Linux path): format check, then
— when the command string is literally `"reboot"` — the `"rebooting"`
marker with the command requestId is persisted via `Rebooting` before the
shell command is executed, then the result envelope is built from the
execution outcome.  The error text of a failed execution is a Go error
rendering, abridged here. -/
def controlBash (assetCode requestId : String) (bashData : CmdBash)
    (ex : BashExec) (cfg : DeviceConfig) : BashOutcome :=
  if !checkBash bashData then
    { result := formError assetCode requestId "bash" bashData.cmd,
      configResult := emptyResultMsg, cfg := cfg, acts := [] }
  else
    let step1 : DeviceConfig × List CtlAct :=
      if bashData.cmd == "reboot" then
        (rebooting "rebooting" requestId cfg, [CtlAct.writeRebootMarker requestId])
      else (cfg, [])
    let acts := step1.2 ++ [CtlAct.execShell bashData.cmd]
    let statusCode : Int := if ex.ok then 200 else 400
    let cmdStatus : CmdStatus :=
      if ex.ok then { newCmdStatus statusCode with succeed := 1, errMsg := "" }
      else { newCmdStatus statusCode with succeed := 0, errMsg := "exec error" }
    { result := { assetCode := assetCode,
                  result := some (newCmdResult "bash" bashData.cmd ex.out),
                  results := none, status := cmdStatus,
                  requestId := requestId, appGroupId := "" },
      configResult := emptyResultMsg, cfg := step1.1, acts := acts }

/-- The deferred reboot reply that `RunBody` builds at startup. -/
def rebootResultMsg (assetCode requestId : String) : ResultMsg :=
  { assetCode := assetCode,
    result := some (newCmdResult "bash" "reboot" "reboot completed."),
    results := none,
    status := { succeed := 1, statusCode := 200, errMsg := "" },
    requestId := requestId, appGroupId := "" }

/-- The reboot check that `RunBody` performs at process start, before the
runtime-info message and before subscribing: when the persisted marker is
`"rebooting"`, exactly one reply carrying the stored requestId is
published and the marker is rewritten to `"completed"` (with an empty
requestId). -/
def runBodyRebootCheck (cfg : DeviceConfig) : List OutMsg × DeviceConfig :=
  if cfg.reboot == "rebooting" then
    ([OutMsg.response (rebootResultMsg cfg.assetCode cfg.requestId)],
     rebooting "completed" "" cfg)
  else ([], cfg)

/-! ## Deployment engine

The Linux (`archType ≠ "win"`, new-version manifest) paths of `Deploy`,
`InferenceDeploy`, `Delete`, `DeleteVenv` and `InferenceDelete`, over an
explicit filesystem/registry state and an oracle for the external effects
(HTTP download, conda/pip, systemctl). -/

/-- The on-device state the deployment engine mutates: the registry file,
the app directories (`{appName}_{appId}` under the app path), the venv
directories, the installed service units, and the trace of artifact URLs
for which a download was attempted. -/
structure World where
  registry : Registry
  appDirs : List String
  venvDirs : List String
  services : List String
  downloads : List String
deriving Repr, DecidableEq

/-- The `spec.env` fields of the unpacked framework manifest that `Deploy`
reads. -/
structure Manifest where
  virtualEnv : String
  runTime : String
deriving Repr, DecidableEq

/-- Outcomes of the external effects the engine invokes.  Keyed by URL
(downloads), venv name (environment creation), or app name (services,
pids, per-app steps). -/
structure DeployEnv where
  downloadOk : String → Bool
  manifest : String → Manifest
  hasInstallSh : String → Bool
  installShOk : String → Bool
  createVenvOk : String → Bool
  startOk : String → Bool
  enableOk : String → Bool
  pidOf : String → Option Int
  inferenceDirOk : String → Bool
  modelFileName : String → String
  weightOk : String → Bool
  configPatchOk : String → Bool
  getConfigOk : String → Bool
  removeOk : Bool

/-- Go `strings.Contains` for a non-empty substring (the engine only tests
for `"python"` and `"go"`). -/
def goContains (s sub : String) : Bool := (s.splitOn sub).length > 1

/-- `fileDownload`: attempts the HTTP GET (recorded in `downloads` in
either case); on a 200 response the archive is unzipped under the app
directory and the extracted tree renamed to `{appName}_{appId}`. -/
def fileDownloadM (env : DeployEnv) (fileUrl appId appName : String)
    (w : World) : World × Bool :=
  if env.downloadOk fileUrl then
    ({ w with downloads := w.downloads ++ [fileUrl],
              appDirs := w.appDirs ++ [appName ++ "_" ++ appId] }, true)
  else
    ({ w with downloads := w.downloads ++ [fileUrl] }, false)

/-- The `cmdInfo` fields of a single-application deploy command that the
engine reads. -/
structure CmdDeployData where
  appId : String
  appName : String
  app : String
  fileUrl : String
  venvName : String
deriving Repr, DecidableEq

/-- The per-application result map built by the engine (`name`, `pid`,
`size`, `appRepoPath`, and for group deploys `venv`). -/
structure DeployResultData where
  name : String
  pid : Int
  size : Int
  appRepoPath : String
  venv : String := ""
deriving Repr, DecidableEq

/-- The zero-initialized result map of `Deploy`. -/
def emptyDeployResult : DeployResultData :=
  { name := "", pid := -1, size := -1, appRepoPath := "" }

/-- `Deploy` (Linux path), in source order: artifact download and unpack,
manifest name resync (`SaveFramework`, not observable in this state),
then the artifact-version branch on `os.Stat` of `install.sh` in the
unpacked tree:

* old-version artifact (`install.sh` present): the installer script is
  run — with no `CheckExistApp`, no venv provisioning and no
  `SaveAppInfo` — and an installer failure returns 400;
* new-version artifact: `CheckExistApp` against the registry, venv
  resolution (the `"app-store"` or empty sentinel resolves to the
  manifest environment), venv creation with default packages when a
  Python runtime names a missing environment, service-unit creation,
  `SaveAppInfo`, `systemctl start`, `systemctl enable`.

Both branches fall through to the shared pid resolution (`GetPid`);
failure there returns the app error log as the error with statusCode 400
(on the new-version path the record stays registered).  Artifact sizes
and error-log text are not modelled (size `0`, fixed error strings). -/
def deployM (env : DeployEnv) (d : CmdDeployData) (w : World) :
    DeployResultData × Option String × Int × String × World :=
  let dl := fileDownloadM env d.fileUrl d.appId d.appName w
  let w1 := dl.1
  if !dl.2 then (emptyDeployResult, some "Download error", 400, d.venvName, w1)
  else
    let stepped : (DeployResultData × Option String × Int × String × World) ⊕
        (String × World) :=
      if env.hasInstallSh d.appName then
        if env.installShOk d.appName then .inr (d.venvName, w1)
        else .inl (emptyDeployResult, some "install error", 400, d.venvName, w1)
      else
        let fw := env.manifest d.appName
        if checkExistApp d.appName w1.registry then
          .inl (emptyDeployResult, some "App already exist.", 400, d.venvName, w1)
        else
          let venv := if d.venvName == "app-store" || d.venvName == "" then
            fw.virtualEnv else d.venvName
          let provision : Option String × World :=
            if goContains fw.runTime "python" && !(w1.venvDirs.contains venv) then
              if env.createVenvOk venv then
                (none, { w1 with venvDirs := w1.venvDirs ++ [venv] })
              else (some "Create venv error", w1)
            else (none, w1)
          match provision with
          | (some e, w2) => .inl (emptyDeployResult, some e, 400, venv, w2)
          | (none, w2) =>
            let w3 := { w2 with services := w2.services ++ [d.appName] }
            let reg4 := saveAppInfo d.appName d.appId venv "systemd" newInferenceInfo "" w3.registry
            let w4 := { w3 with registry := reg4 }
            if !(env.startOk d.appName) then
              .inl (emptyDeployResult, some "start error", 400, venv, w4)
            else if !(env.enableOk d.appName) then
              .inl (emptyDeployResult, some "enable error", 400, venv, w4)
            else .inr (venv, w4)
    match stepped with
    | .inl r => r
    | .inr (venv, w') =>
      match env.pidOf d.appName with
      | none =>
        ({ name := d.appName, pid := -1, size := 0, appRepoPath := "" },
         some "app error log", 400, venv, w')
      | some p =>
        ({ name := d.appName, pid := p, size := 0, appRepoPath := "" },
         none, 200, venv, w')

/-- `DeleteVenv`: rejects the empty name and `"*"` before touching
anything, then `os.RemoveAll` on the environment directory.  No registry
backreference check is performed. -/
def deleteVenvM (envName : String) (env : DeployEnv) (w : World) :
    String × Option String × Int × World :=
  if envName == "" || envName == "*" then
    ("", some "Not collect value.", 400, w)
  else if env.removeOk then
    ("Deleted V-Env.", none, 200,
     { w with venvDirs := w.venvDirs.filter (fun v => v != envName) })
  else ("", some "remove error", 400, w)

/-- `Delete` (Linux path): rejects the empty name and `"*"` before
touching anything; otherwise best-effort removal of the app directory,
`systemctl disable` / `stop`, the unit file, and finally
`DeleteAppInfo` (sub-step failures are logged and do not abort). -/
def deleteAppM (appName appId : String) (w : World) :
    Option DeployResultData × Option String × Int × World :=
  if appName == "" || appName == "*" then
    (none, some "Not collect value.", 400, w)
  else
    let dir := appName ++ "_" ++ appId
    let w1 := { w with appDirs := w.appDirs.filter (fun p => p != dir),
                       services := w.services.filter (fun s => s != appName),
                       registry := deleteAppInfo appName w.registry }
    (some { name := appName, pid := -1, size := -1, appRepoPath := "" },
     none, 200, w1)

/-- One entry of the `apps` list of a group deploy command. -/
structure InfApp where
  appType : String
  appId : String
  appName : String
  app : String
  fileUrl : String
  venvName : String
  modelId : String
  modelName : String
  modelVersion : Int
  modelUrl : String
deriving Repr, DecidableEq

/-- The `InferenceDeploy` loop.  Per app, in source order: download,
manifest resync, `CheckExistApp`, venv resolution and creation (always
checked, Python assumed), `SaveAppInfo` with the group id and the model
fields, service-unit creation, then the app-type branch (`"INFERENCE"`
creates the weights/result/logs/data directories, resolves the weight
filename from the parameter map, downloads the weight and applies the
config patch; `"REQUEST"` skips; anything else is an error), `systemctl
start` / `enable`, and pid resolution.  Any failure returns immediately
with the successes accumulated so far and statusCode 400. -/
def inferenceDeployGo (env : DeployEnv) (groupId : String) :
    List InfApp → World → List DeployResultData → String →
    List DeployResultData × Option String × Int × String × World
  | [], w, acc, venv => (acc, none, 200, venv, w)
  | a :: rest, w, acc, _ =>
    let dl := fileDownloadM env a.fileUrl a.appId a.appName w
    let w1 := dl.1
    if !dl.2 then (acc, some "Download error", 400, a.venvName, w1)
    else
      let fw := env.manifest a.appName
      if checkExistApp a.appName w1.registry then
        (acc, some "App already exist.", 400, a.venvName, w1)
      else
        let venv := if a.venvName == "" || a.venvName == "app-store" then
          fw.virtualEnv else a.venvName
        let provision : Option String × World :=
          if !(w1.venvDirs.contains venv) then
            if env.createVenvOk venv then
              (none, { w1 with venvDirs := w1.venvDirs ++ [venv] })
            else (some "Create venv error", w1)
          else (none, w1)
        match provision with
        | (some e, w2) => (acc, some e, 400, venv, w2)
        | (none, w2) =>
          let reg3 := saveAppInfo a.appName a.appId venv "systemd" ⟨a.modelId, a.modelName, a.modelVersion⟩ groupId w2.registry
          let w3 := { w2 with registry := reg3 }
          let w4 := { w3 with services := w3.services ++ [a.appName] }
          let typeStep : Option String :=
            if a.appType == "INFERENCE" then
              if !(env.inferenceDirOk a.appName) then some "inference dir error"
              else if env.modelFileName a.appName == "" then some "Filename is null."
              else if !(env.weightOk a.modelUrl) then some "weight download error"
              else if !(env.configPatchOk a.appName) then some "config patch error"
              else none
            else if a.appType == "REQUEST" then none
            else some (a.appType ++ ": Invalid app type.")
          match typeStep with
          | some e => (acc, some e, 400, venv, w4)
          | none =>
            if !(env.startOk a.appName) then (acc, some "start error", 400, venv, w4)
            else if !(env.enableOk a.appName) then
              (acc, some "enable error", 400, venv, w4)
            else
              match env.pidOf a.appName with
              | none => (acc, some "app error log", 400, venv, w4)
              | some p =>
                inferenceDeployGo env groupId rest w4
                  (acc ++ [{ name := a.appName, pid := p, size := 0,
                             appRepoPath := "", venv := venv }]) venv

/-- `InferenceDeploy`: the loop above over the whole `apps` list. -/
def inferenceDeployM (env : DeployEnv) (apps : List InfApp) (groupId : String)
    (w : World) :
    List DeployResultData × Option String × Int × String × World :=
  inferenceDeployGo env groupId apps w [] ""

/-- The per-member state change of `InferenceDelete`: remove the app
directory, disable/stop the unit, remove the unit file, and
`DeleteAppInfo`. -/
def inferenceDeleteStep (w : World) (p : String × String) : World :=
  { w with appDirs := w.appDirs.filter (fun d => d != p.1 ++ "_" ++ p.2),
           services := w.services.filter (fun s => s != p.1),
           registry := deleteAppInfo p.1 w.registry }

/-- `InferenceDelete`: errors on empty member lists, otherwise best-effort
removal of every member (the result/deployData bookkeeping it also
returns is not inspected by the claims). -/
def inferenceDeleteM (appNames appIds : List String) (w : World) :
    Option String × Int × World :=
  if appNames.isEmpty || appIds.isEmpty then (some "App\x27s len is zero.", 400, w)
  else (none, 200, (appNames.zip appIds).foldl inferenceDeleteStep w)

/-- The group-deploy command fields the dispatcher reads (`AppName` /
`AppId` stay zero-valued for group deploys but are passed to the
`Delete` rollback of the success-path config fetch). -/
structure CmdDeployGroupData where
  appId : String
  appName : String
  apps : List InfApp
  appGroupId : String
deriving Repr, DecidableEq

/-- The `appDeploy` group branch of `Control` (`len(Apps) > 0`): run
`InferenceDeploy`; on statusCode 400 roll the whole group back via
`GetAppsFromGroup` + `InferenceDelete`; on success fetch each member
config (`GetConfig` returns 200 or 204, never 400, so its `Delete`
fallback is dead code, mirrored faithfully); then build one `CmdResult`
per *requested* app — failure runs publish the request-derived fields with
`-1`/empty outcome fields — and a single overall status (`succeed = 0`
and the error text when any member failed). -/
def controlAppDeployGroup (env : DeployEnv) (assetCode requestId : String)
    (d : CmdDeployGroupData) (w : World) : ResultMsg × World :=
  let out := inferenceDeployM env d.apps d.appGroupId w
  let infResult := out.1
  let cmdErr := out.2.1
  let statusCode := out.2.2.1
  let w1 := out.2.2.2.2
  let after : Int × World :=
    if statusCode == 400 then
      let ni := getAppsFromGroup d.appGroupId w1.registry
      (statusCode, (inferenceDeleteM ni.1 ni.2 w1).2.2)
    else
      d.apps.foldl (fun acc app =>
        let code : Int := if env.getConfigOk app.appName then 200 else 204
        if code == 400 then (code, (deleteAppM d.appName d.appId acc.2).2.2.2)
        else (code, acc.2)) (statusCode, w1)
  let deployMessage :=
    if cmdErr.isSome then d.appName ++ "\x27s appDeploy failed."
    else d.appName ++ "\x27s appDeploy successed."
  let cmdResults := d.apps.enum.map (fun ia =>
    let app := ia.2
    let base := newCmdResult "deploy" "appDeploy" deployMessage
    let base := { base with appId := app.appId, appName := app.appName,
                            modelName := app.modelName,
                            modelVersion := app.modelVersion,
                            modelId := app.modelId }
    if cmdErr.isSome then
      { base with venvName := "", size := -1, pid := -1, appRepoPath := "" }
    else
      let r := infResult.getD ia.1 emptyDeployResult
      { base with venvName := r.venv, size := r.size, pid := r.pid,
                  appRepoPath := r.appRepoPath })
  let status0 := newCmdStatus after.1
  let status :=
    if cmdErr.isSome then { status0 with succeed := 0, errMsg := cmdErr.getD "" }
    else { status0 with succeed := 1, errMsg := "" }
  ({ assetCode := assetCode, result := none, results := some cmdResults,
     status := status, requestId := requestId, appGroupId := d.appGroupId },
   after.2)

/-! ## Concrete fixtures used by the counterexamples and witnesses -/

/-- Oracle where every external effect succeeds and every artifact is a
new-version artifact (no `install.sh`). -/
def envAllOk : DeployEnv :=
  { downloadOk := fun _ => true,
    manifest := fun _ => ⟨"base", "python3.9"⟩,
    hasInstallSh := fun _ => false,
    installShOk := fun _ => true,
    createVenvOk := fun _ => true,
    startOk := fun _ => true,
    enableOk := fun _ => true,
    pidOf := fun _ => some 100,
    inferenceDirOk := fun _ => true,
    modelFileName := fun _ => "model.pt",
    weightOk := fun _ => true,
    configPatchOk := fun _ => true,
    getConfigOk := fun _ => true,
    removeOk := true }

/-- A device with the base venv present and no apps installed. -/
def w0 : World :=
  { registry := none, appDirs := [], venvDirs := ["base"], services := [],
    downloads := [] }

/-- A request-type group member named `n` with id `i` and artifact `u`. -/
def infApp (n i u : String) : InfApp :=
  { appType := "REQUEST", appId := i, appName := n, app := n, fileUrl := u,
    venvName := "", modelId := "", modelName := "", modelVersion := -1,
    modelUrl := "" }

/-- A three-application group deploy command. -/
def dC3 : CmdDeployGroupData :=
  { appId := "", appName := "",
    apps := [infApp "app1" "i1" "http://repo/app1.zip",
             infApp "app2" "i2" "http://repo/app2.zip",
             infApp "app3" "i3" "http://repo/app3.zip"],
    appGroupId := "grp-1" }

/-- Oracle where only the second application artifact fails to download. -/
def envC3 : DeployEnv :=
  { envAllOk with downloadOk := fun u => u != "http://repo/app2.zip" }

/-- A single-application deploy command for `app1`. -/
def dC4 : CmdDeployData :=
  { appId := "new", appName := "app1", app := "app1",
    fileUrl := "http://repo/app1.zip", venvName := "base" }

/-- A device on which `app1` is already registered. -/
def wC4 : World :=
  { w0 with registry := some [⟨"app1", "old", "base", "systemd", "",
    newInferenceInfo⟩] }

/-- Oracle where every artifact is an old-version artifact (`install.sh`
present) and the installer succeeds. -/
def envC4old : DeployEnv :=
  { envAllOk with hasInstallSh := fun _ => true }

/-- A device on which `app1` is registered with `appVenv = "venv-a"` and
the `venv-a` directory exists. -/
def wC5 : World :=
  { registry := some [⟨"app1", "i1", "venv-a", "systemd", "",
      newInferenceInfo⟩],
    appDirs := ["app1_i1"], venvDirs := ["venv-a"], services := ["app1"],
    downloads := [] }

/-! ## Supporting lemmas -/

theorem lookupField_setField_ne (fs : List (String × JVal)) (k x : String)
    (v : JVal) (h : k ≠ x) :
    lookupField (setField fs k v) x = lookupField fs x := by
  induction fs with
  | nil =>
    have hkx : (k == x) = false := beq_eq_false_iff_ne.mpr h
    simp [setField, lookupField, hkx]
  | cons hd tl ih =>
    obtain ⟨k', v'⟩ := hd
    by_cases hk : k' = k
    · subst hk
      have hkx : (k' == x) = false := beq_eq_false_iff_ne.mpr h
      simp [setField, lookupField, hkx]
    · have hk' : (k' == k) = false := beq_eq_false_iff_ne.mpr hk
      simp [setField, hk', lookupField, ih]

theorem mergeOne_cont_lookup (key : String) (val tval : JVal)
    (target : List (String × JVal)) (x : String) (hkx : key ≠ x)
    (t' : List (String × JVal)) (e' : Option String)
    (h : mergeOne key val tval target = .cont t' e') :
    lookupField t' x = lookupField target x := by
  have hset : ∀ w : JVal,
      lookupField (setField target key w) x = lookupField target x :=
    fun w => lookupField_setField_ne target key x w hkx
  cases tval
  case obj tfields =>
    cases val
    case obj vfields =>
      simp only [mergeOne, MergeStep.cont.injEq] at h
      obtain ⟨h1, -⟩ := h
      subst h1
      exact hset _
    all_goals exact absurd h (by simp [mergeOne])
  case num tok =>
    simp only [mergeOne] at h
    split at h
    · exact absurd h (by simp)
    · split at h
      · simp only [MergeStep.cont.injEq] at h
        obtain ⟨h1, -⟩ := h
        subst h1
        exact hset _
      · split at h
        · simp only [MergeStep.cont.injEq] at h
          obtain ⟨h1, -⟩ := h
          subst h1
          exact hset _
        · split at h
          · simp only [MergeStep.cont.injEq] at h
            obtain ⟨h1, -⟩ := h
            subst h1
            exact hset _
          · simp only [MergeStep.cont.injEq] at h
            obtain ⟨h1, -⟩ := h
            subst h1
            rfl
  all_goals
    simp only [mergeOne] at h
    split at h
    · exact absurd h (by simp)
    · split at h
      · simp only [MergeStep.cont.injEq] at h
        obtain ⟨h1, -⟩ := h
        subst h1
        exact hset _
      · simp only [MergeStep.cont.injEq] at h
        obtain ⟨h1, -⟩ := h
        subst h1
        exact hset _

/-- When the patch maps `x` to a string and the target maps `x` to an
object, the `changeInterface` loop always leaves with a non-nil error:
entries before `x` either continue (preserving the binding of `x`) or
return an error, and the entry for `x` itself returns the type-mismatch
error (or a pending one). -/
theorem changeInterfaceAux_mismatch (data : List (String × JVal)) :
    ∀ (target : List (String × JVal)) (err : Option String) (x s : String)
      (o : List (String × JVal)),
    lookupField data x = some (.str s) →
    lookupField target x = some (.obj o) →
    (changeInterfaceAux data target err).2 ≠ none := by
  induction data with
  | nil =>
    intro target err x s o hd ht
    simp [lookupField] at hd
  | cons hd rest ih =>
    intro target err x s o hdata htarget
    obtain ⟨key, val⟩ := hd
    by_cases hkx : key = x
    · subst hkx
      simp [lookupField] at hdata
      subst hdata
      simp only [changeInterfaceAux, htarget]
      cases err with
      | some e => simp
      | none => simp [mergeOne]
    · have hkx' : (key == x) = false := beq_eq_false_iff_ne.mpr hkx
      simp [lookupField, hkx'] at hdata
      simp only [changeInterfaceAux]
      cases hlk : lookupField target key with
      | none =>
        simp only [hlk]
        exact ih target err x s o hdata htarget
      | some tval =>
        simp only [hlk]
        cases err with
        | some e => simp
        | none =>
          cases hm : mergeOne key val tval target with
          | abort e => simp [hm]
          | cont t' e' =>
            simp only [hm]
            have hpres : lookupField t' x = lookupField target x :=
              mergeOne_cont_lookup key val tval target x hkx t' e' hm
            exact ih t' e' x s o hdata (hpres ▸ htarget)

/-! ## Claim theorems -/

/-- Claim C2: for every target JSON document whose key `x` holds a map and
every patch whose value for `x` is a string, the patch operation
(`JsonChange` / `changeInterface`) returns an error with statusCode 400
and the target file on disk is unchanged — the merge error is raised
before the write-back, so no partial write is observable. -/
theorem patch_type_mismatch_aborts
    (p t o : List (String × JVal)) (x s fn : String)
    (hfn : fn ≠ "")
    (hp : lookupField p x = some (.str s))
    (ht : lookupField t x = some (.obj o)) :
    ∃ e, jsonChange (some p) fn (some t) = (some e, 400, some t) := by
  have hmm := changeInterfaceAux_mismatch p t none x s o hp ht
  have hfn' : (fn == "") = false := beq_eq_false_iff_ne.mpr hfn
  obtain ⟨e, he⟩ : ∃ e, (changeInterface p t).2 = some e := by
    cases hc : (changeInterface p t).2 with
    | none => exact absurd hc (by simpa [changeInterface] using hmm)
    | some e => exact ⟨e, rfl⟩
  refine ⟨e, ?_⟩
  simp [jsonChange, hfn', he]

/-- Witness for C2: a concrete map-valued target field patched with a
string aborts with 400 and the file content is unchanged. -/
theorem patch_type_mismatch_aborts_witness :
    ∃ e, jsonChange (some [("x", JVal.str "v")]) "config.json"
        (some [("x", JVal.obj [])]) = (some e, 400, some [("x", JVal.obj [])]) :=
  patch_type_mismatch_aborts [("x", JVal.str "v")] [("x", JVal.obj [])] [] "x"
    "v" "config.json" (by decide) (by simp [lookupField]) (by simp [lookupField])

/-- Counterexample to claim C6: with target `("n", number token "3")` and
patch value `7`, the merged field serializes as `"7"`, not `"7.0"` (the
integer-token branch of `changeInterface` stores the raw patch value);
and with target `("n", "str")` and patch value `9`, the merged value is
the number `9` (serialized `"9"`), not a string. -/
theorem patch_numeric_counterexample :
    fieldText (((jsonChange (some [("n", JVal.float 7)]) "config.json"
        (some [("n", JVal.num "3")])).2.2).getD []) "n" = some "7" ∧
    fieldText (((jsonChange (some [("n", JVal.float 7)]) "config.json"
        (some [("n", JVal.num "3")])).2.2).getD []) "n" ≠ some "7.0" ∧
    (lookupField (((jsonChange (some [("n", JVal.float 9)]) "config.json"
        (some [("n", JVal.str "str")])).2.2).getD []) "n").map JVal.isStr =
      some false ∧
    fieldText (((jsonChange (some [("n", JVal.float 9)]) "config.json"
        (some [("n", JVal.str "str")])).2.2).getD []) "n" = some "9" := by
  refine ⟨?_, ?_, ?_, ?_⟩ <;>
    simp [jsonChange, changeInterface, changeInterfaceAux, mergeOne, lookupField,
      setField, numTokIntOk, numTokFloatOk, JVal.isMap, JVal.isStr, fieldText,
      goMarshalScalar] <;> decide

/-- Claim C6 as amended: a patch value overwriting an *integer* numeric
literal is stored raw and serializes without a decimal point (`3` patched
with `7` gives `7`); the one-decimal `ToNumber` normalization applies only
when the existing value is a *float* literal (`3.5` patched with `7`
gives `7.0`); and a numeric patch value overwriting a string is stored as
the raw number (`"str"` patched with `9` gives the number `9`). -/
theorem patch_numeric_normalization :
    fieldText (((jsonChange (some [("n", JVal.float 7)]) "config.json"
        (some [("n", JVal.num "3")])).2.2).getD []) "n" = some "7" ∧
    fieldText (((jsonChange (some [("n", JVal.float 7)]) "config.json"
        (some [("n", JVal.num "3.5")])).2.2).getD []) "n" = some "7.0" ∧
    fieldText (((jsonChange (some [("n", JVal.float 9)]) "config.json"
        (some [("n", JVal.str "str")])).2.2).getD []) "n" = some "9" := by
  refine ⟨?_, ?_, ?_⟩ <;>
    simp [jsonChange, changeInterface, changeInterfaceAux, mergeOne, lookupField,
      setField, numTokIntOk, numTokFloatOk, JVal.isMap, JVal.isStr, fieldText,
      goMarshalScalar, ToNumber, goFmtOneDecimal] <;> decide

/-- A guarded add keeps the no-duplicate-names invariant: the add is only
performed when `CheckExistApp` is false, so the appended name is fresh;
`DeleteAppInfo` keeps a sublist of the records. -/
theorem noDupNames_applyRegOpGuarded (reg : Registry) (op : RegOp)
    (h : NoDupNames reg) : NoDupNames (applyRegOpGuarded reg op) := by
  cases op with
  | add n i v m inf g =>
    by_cases hex : checkExistApp n reg
    · simpa [applyRegOpGuarded, hex] using h
    · cases reg with
      | none =>
        simp [applyRegOpGuarded, hex, saveAppInfo, NoDupNames, registryNames]
      | some l =>
        have hex' : (l.any (fun a => a.appName == n)) = false := by
          simpa [checkExistApp] using hex
        have hnotin : n ∉ l.map (fun a => a.appName) := by
          intro hmem
          obtain ⟨a, ha, hay⟩ := List.mem_map.mp hmem
          have : (a.appName == n) = true := by simp [hay]
          have hfa := List.any_eq_false.mp hex' a ha
          exact absurd this (by simp [hfa])
        simp only [NoDupNames, registryNames, Option.getD_some] at h
        simp [applyRegOpGuarded, checkExistApp, hex', saveAppInfo, NoDupNames,
          registryNames, List.nodup_append, h]
        intro a ha hay
        exact hnotin (List.mem_map.mpr ⟨a, ha, hay⟩)
  | remove n =>
    cases reg with
    | none => simpa [applyRegOpGuarded, deleteAppInfo] using h
    | some l =>
      simp only [applyRegOpGuarded, deleteAppInfo, NoDupNames, registryNames,
        Option.getD_some] at h ⊢
      have hs : (l.filter (fun a => a.appName != n)).Sublist l :=
        List.filter_sublist l
      exact h.sublist (hs.map _)

theorem noDupNames_runRegOpsGuarded (ops : List RegOp) :
    ∀ reg, NoDupNames reg → NoDupNames (runRegOpsGuarded ops reg) := by
  induction ops with
  | nil => intro reg h; simpa [runRegOpsGuarded] using h
  | cons op rest ih =>
    intro reg h
    simpa [runRegOpsGuarded, List.foldl_cons] using
      ih _ (noDupNames_applyRegOpGuarded reg op h)

/-- Counterexample to claim C1: `SaveAppInfo` itself performs no
uniqueness check, so the two-operation sequence add `app1`, add `app1`
starting from an absent registry file leaves two records with the same
`appName`. -/
theorem registry_uniqueness_counterexample :
    ¬ NoDupNames (runRegOps
      [RegOp.add "app1" "i1" "base" "systemd" newInferenceInfo "",
       RegOp.add "app1" "i2" "base" "systemd" newInferenceInfo ""] none) := by
  simp [runRegOps, applyRegOp, saveAppInfo, NoDupNames, registryNames]

/-- Claim C1 as amended: for every sequence of adds and removes in which
each add is performed only when `CheckExistApp` reports the name absent —
the guard the deployment call sites apply before every `SaveAppInfo` —
a registry starting absent or empty never holds two records with the same
`appName`. -/
theorem registry_uniqueness_guarded (ops : List RegOp) :
    NoDupNames (runRegOpsGuarded ops none) ∧
    NoDupNames (runRegOpsGuarded ops (some [])) :=
  ⟨noDupNames_runRegOpsGuarded ops none (by simp [NoDupNames, registryNames]),
   noDupNames_runRegOpsGuarded ops (some []) (by simp [NoDupNames, registryNames])⟩

/-- Counterexample to claim C7: both registry writers write the registry
path directly (`ioutil.WriteFile`) and no rename appears in either
trace — the write is not performed as write-to-temp + rename. -/
theorem registry_write_counterexample :
    writesDirectly (saveAppInfoFsTrace "/etc/sdt" true)
      (registryFile "/etc/sdt") = true ∧
    (saveAppInfoFsTrace "/etc/sdt" true).any isRename = false ∧
    writesDirectly (saveAppInfoFsTrace "/etc/sdt" false)
      (registryFile "/etc/sdt") = true ∧
    (saveAppInfoFsTrace "/etc/sdt" false).any isRename = false ∧
    writesDirectly (deleteAppInfoFsTrace "/etc/sdt")
      (registryFile "/etc/sdt") = true ∧
    (deleteAppInfoFsTrace "/etc/sdt").any isRename = false := by
  decide

/-- Claim C7 as amended: every registry update is a single whole-file
in-place write of the registry path (read-modify-write, one
`ioutil.WriteFile`, no temp file, no rename), so a concurrent reader can
observe a partially written file. -/
theorem registry_write_in_place (rootPath : String) (fileExists : Bool) :
    writeCount (saveAppInfoFsTrace rootPath fileExists)
      (registryFile rootPath) = 1 ∧
    (saveAppInfoFsTrace rootPath fileExists).any isRename = false ∧
    writeCount (deleteAppInfoFsTrace rootPath) (registryFile rootPath) = 1 ∧
    (deleteAppInfoFsTrace rootPath).any isRename = false := by
  cases fileExists <;>
    simp [saveAppInfoFsTrace, deleteAppInfoFsTrace, writeCount, isRename,
      isWriteTo, List.filter, List.any]

/-- Claim C10: an application-delete or venv-delete command whose target
name is empty or `"*"` returns the `"Not collect value."` error with
statusCode 400 and the world — app directories, service units, registry,
venv directories — is untouched. -/
theorem wildcard_delete_guard (name appId : String) (env : DeployEnv) (w : World)
    (h : name = "" ∨ name = "*") :
    deleteAppM name appId w = (none, some "Not collect value.", 400, w) ∧
    deleteVenvM name env w = ("", some "Not collect value.", 400, w) := by
  rcases h with h | h <;> subst h <;> exact ⟨rfl, rfl⟩

/-- Witness for C10 at the empty name. -/
theorem wildcard_delete_guard_witness :
    deleteAppM "" "i1" w0 = (none, some "Not collect value.", 400, w0) ∧
    deleteVenvM "" envAllOk w0 = ("", some "Not collect value.", 400, w0) :=
  wildcard_delete_guard "" "i1" envAllOk w0 (Or.inl rfl)

/-- Claim C4 as amended: deploying an application whose name is already
registered and whose downloaded artifact is a new-version artifact (no
`install.sh` — the old-version branch runs the installer with no
existence check at all) fails with the `"App already exist."` error and
statusCode 400 and leaves the registry unchanged, but the artifact *is*
downloaded and unpacked into `{appName}_{appId}` first — `fileDownload`
runs before `CheckExistApp` in `Deploy`. -/
theorem deploy_exists_guard (env : DeployEnv) (d : CmdDeployData) (w : World)
    (h0 : env.hasInstallSh d.appName = false)
    (h1 : env.downloadOk d.fileUrl = true)
    (h2 : checkExistApp d.appName w.registry = true) :
    deployM env d w = (emptyDeployResult, some "App already exist.", 400,
      d.venvName,
      { w with downloads := w.downloads ++ [d.fileUrl],
               appDirs := w.appDirs ++ [d.appName ++ "_" ++ d.appId] }) := by
  simp [deployM, fileDownloadM, h0, h1, h2]

/-- Witness for the amended C4 on a concrete device state with a
new-version artifact. -/
theorem deploy_exists_guard_witness :
    deployM envAllOk dC4 wC4 = (emptyDeployResult, some "App already exist.",
      400, "base",
      { wC4 with downloads := ["http://repo/app1.zip"], appDirs := ["app1_new"] }) :=
  deploy_exists_guard envAllOk dC4 wC4 rfl rfl (by decide)

/-- Counterexample to claim C4: deploying `app1` while `app1` is already
registered does fail with 400 `"App already exist."` for a new-version
artifact and leaves the registry unchanged, but the artifact download
trace grows from `[]` to one attempted (and unpacked) download — refuting
"does not download the artifact"; and with an old-version artifact
(`install.sh` present) the existence check is bypassed entirely and the
same deploy returns no error with statusCode 200 — refuting "fails with
statusCode 400" as well. -/
theorem deploy_downloads_before_guard_counterexample :
    (deployM envAllOk dC4 wC4).2.1 = some "App already exist." ∧
    (deployM envAllOk dC4 wC4).2.2.1 = 400 ∧
    (deployM envAllOk dC4 wC4).2.2.2.2.downloads = ["http://repo/app1.zip"] ∧
    wC4.downloads = [] ∧
    (deployM envAllOk dC4 wC4).2.2.2.2.registry = wC4.registry ∧
    (deployM envC4old dC4 wC4).2.1 = none ∧
    (deployM envC4old dC4 wC4).2.2.1 = 200 := by
  decide

/-- Counterexample to claim C5: `venv-a` is referenced by the `app1`
Application Record, yet `DeleteVenv` succeeds (statusCode 200) and
removes the environment directory — there is no registry backreference
check. -/
theorem venv_delete_guard_counterexample :
    (wC5.registry.getD []).any (fun a => a.appVenv == "venv-a") = true ∧
    deleteVenvM "venv-a" envAllOk wC5 =
      ("Deleted V-Env.", none, 200, { wC5 with venvDirs := [] }) := by
  decide

/-- Claim C5 as amended: for every venv-delete naming a non-empty,
non-`"*"` environment whose directory removal succeeds, the delete
succeeds and removes the directory even when the environment is
referenced by an Application Record (the registry is not consulted and
is left unchanged). -/
theorem venv_delete_no_backref_check (envName : String) (env : DeployEnv)
    (w : World) (h1 : envName ≠ "") (h2 : envName ≠ "*")
    (h3 : env.removeOk = true)
    (h4 : (w.registry.getD []).any (fun a => a.appVenv == envName) = true) :
    deleteVenvM envName env w = ("Deleted V-Env.", none, 200,
      { w with venvDirs := w.venvDirs.filter (fun v => v != envName) }) := by
  have e1 : (envName == "") = false := beq_eq_false_iff_ne.mpr h1
  have e2 : (envName == "*") = false := beq_eq_false_iff_ne.mpr h2
  simp [deleteVenvM, e1, e2, h3]

/-- Witness for the amended C5 on a concrete referenced environment. -/
theorem venv_delete_no_backref_check_witness :
    deleteVenvM "venv-a" envAllOk wC5 = ("Deleted V-Env.", none, 200,
      { wC5 with venvDirs := wC5.venvDirs.filter (fun v => v != "venv-a") }) :=
  venv_delete_no_backref_check "venv-a" envAllOk wC5 (by decide) (by decide) rfl
    (by decide)

/-- Claim C8: for a bash command whose command string is literally
`"reboot"`, the `"rebooting"` marker with the command requestId is
persisted before the shell command is executed, no immediate result (or
config-result) message is published, and at the next process start with
the marker set exactly one result message carrying the stored requestId
is published, after which the marker is rewritten to `"completed"`. -/
theorem reboot_deferred_reply (assetCode r : String) (ex : BashExec)
    (cfg : DeviceConfig) :
    (controlBash assetCode r ⟨"reboot"⟩ ex cfg).acts =
      [CtlAct.writeRebootMarker r, CtlAct.execShell "reboot"] ∧
    (controlBash assetCode r ⟨"reboot"⟩ ex cfg).cfg.reboot = "rebooting" ∧
    (controlBash assetCode r ⟨"reboot"⟩ ex cfg).cfg.requestId = r ∧
    resultSends (controlBash assetCode r ⟨"reboot"⟩ ex cfg).result = [] ∧
    configSends (controlBash assetCode r ⟨"reboot"⟩ ex cfg).configResult = [] ∧
    runBodyRebootCheck (controlBash assetCode r ⟨"reboot"⟩ ex cfg).cfg =
      ([OutMsg.response (rebootResultMsg cfg.assetCode r)],
       rebooting "completed" "" (controlBash assetCode r ⟨"reboot"⟩ ex cfg).cfg) := by
  refine ⟨?_, ?_, ?_, ?_, ?_, ?_⟩ <;>
    simp [controlBash, checkBash, rebooting, resultSends, configSends,
      runBodyRebootCheck, emptyResultMsg, newCmdResult, newCmdStatus,
      rebootResultMsg]

theorem resultSends_all_response (res : ResultMsg) :
    ∀ x ∈ resultSends res, ∃ msg, x = OutMsg.response msg := by
  intro x hx
  unfold resultSends at hx
  rcases hr : res.result with _ | cr
  · rw [hr] at hx
    simp at hx
    exact ⟨res, hx⟩
  · rw [hr] at hx
    by_cases hc : cr.subCommand != "reboot"
    · simp [hc] at hx
      exact ⟨res, hx⟩
    · simp [hc] at hx

theorem configSends_all_response (res : ResultMsg) :
    ∀ x ∈ configSends res, ∃ msg, x = OutMsg.response msg := by
  intro x hx
  unfold configSends at hx
  by_cases hc : res.assetCode != ""
  · simp [hc] at hx
    exact ⟨res, hx⟩
  · simp [hc] at hx

/-- Claim C9: for every accepted inbound command (one whose envelope
deserializes) and whatever `Control` returns, `SubMessage` publishes the
acknowledgement (echoing the requestId) first; everything published after
it — in particular the result message — is a response envelope following
the ack. -/
theorem ack_before_result (m : CmdControl)
    (ctl : CmdControl → ResultMsg × ResultMsg) :
    ∃ rest, subMessage (some m) ctl = OutMsg.ack m.requestId :: rest ∧
      ∀ x ∈ rest, ∃ msg, x = OutMsg.response msg := by
  refine ⟨_, rfl, ?_⟩
  intro x hx
  rcases List.mem_append.mp hx with hx | hx
  · exact resultSends_all_response _ x hx
  · exact configSends_all_response _ x hx

/-- Counterexample to claim C3: in the three-application group deploy in
which the second artifact download fails, the published result carries
*three* outcome entries (one per requested app), not two. -/
theorem group_deploy_two_outcomes_counterexample :
    ((controlAppDeployGroup envC3 "AC001" "req-1" dC3 w0).1.results.map
      List.length) = some 3 ∧
    ((controlAppDeployGroup envC3 "AC001" "req-1" dC3 w0).1.results.map
      List.length) ≠ some 2 := by
  decide

/-- Claim C3 as amended: in the three-application group deploy in which
the second artifact download fails, `InferenceDeploy` returns the partial
list with the single success, the published result carries one entry per
requested app (three), the overall status is failure (succeed 0,
statusCode 400), and the rollback removes every already-deployed group
member: no Application Record with the group id (in particular none for
the deployed `app1`) remains. -/
theorem group_deploy_failure_report :
    ((controlAppDeployGroup envC3 "AC001" "req-1" dC3 w0).1.results.map
      List.length) = some 3 ∧
    (inferenceDeployM envC3 dC3.apps "grp-1" w0).1.length = 1 ∧
    (controlAppDeployGroup envC3 "AC001" "req-1" dC3 w0).1.status.succeed = 0 ∧
    (controlAppDeployGroup envC3 "AC001" "req-1" dC3 w0).1.status.statusCode
      = 400 ∧
    ((controlAppDeployGroup envC3 "AC001" "req-1" dC3 w0).2.registry.getD
      []).all (fun a => a.appGroupId != "grp-1") = true ∧
    checkExistApp "app1"
      (controlAppDeployGroup envC3 "AC001" "req-1" dC3 w0).2.registry = false := by
  decide

end DeviceControl
